import Mathlib

/-!
Shallow embedding of the ical command-line client (src/unnamed/part_000,
the current version of the program; src/ical.go is an earlier revision of
the same file).  Timestamps and durations are modelled as `Int` numbers of
nanoseconds, the unit of Go's `time.Duration`; the epoch is taken at a
local midnight, so local clock-of-day arithmetic is plain modular
arithmetic on nanoseconds.
-/

namespace Ical

/-- Nanoseconds in one second (Go `time.Second`). -/
def nsPerSec : Int := 1000000000

/-- Nanoseconds in one minute (Go `time.Minute`). -/
def nsPerMin : Int := 60 * nsPerSec

/-- Nanoseconds in one hour (Go `time.Hour`). -/
def nsPerHour : Int := 60 * nsPerMin

/-- Nanoseconds in twenty-four hours, the `24 * time.Hour` constant of the source. -/
def day24 : Int := 24 * nsPerHour

/-- Local-time hour of a timestamp, modelling Go `t.Hour()` with the epoch at a
local midnight: floor to seconds, reduce to the second-of-day, divide by 3600. -/
def hourOf (t : Int) : Int := ((t.ediv nsPerSec).emod 86400).ediv 3600

/-- Local-time minute of a timestamp, modelling Go `t.Minute()` the same way. -/
def minuteOf (t : Int) : Int := (((t.ediv nsPerSec).emod 86400).emod 3600).ediv 60

/-- The Go `event` struct of the source (`start, end, summary, description,
location`); `end` is a Lean keyword, so the field is named `endT`. -/
structure Event where
  start : Int
  endT : Int
  summary : String
  description : String
  location : String
deriving Repr, DecidableEq

/-- Modelled from the spec: the external recurrence library used by the source
(`rrule.NewRRule` / `RRule.Between`), which is a third-party collaborator, not
code of this repository.  `build` is `NewRRule` after the source has bound the
option's `Dtstart` anchor to the event's resolved start: it either fails with
the construction error or yields the full list of start timestamps the rule
generates. -/
structure RRuleOpt where
  build : Int → Except String (List Int)

/-- Modelled from the spec: `rr.Between(start, end, true)` of the external
recurrence library returns exactly the rule-generated timestamps `t` with
`start ≤ t ≤ end`, both boundaries inclusive (`inc = true`). -/
def between (occs : List Int) (wstart wstop : Int) : List Int :=
  occs.filter (fun t => decide (wstart ≤ t ∧ t ≤ wstop))

/-- One VEVENT as handed to `parseEvent`.  Each `Option` field models a source
call whose error the Go code discards with `x, _ := ...`: `none` means the
property was missing or unparsable, in which case the Go variable keeps its
zero value (zero time, empty string, nil rule). -/
structure ICalEvent where
  dtstart : Option Int
  dtend : Option Int
  rrule : Option RRuleOpt
  summary : Option String
  description : Option String
  location : Option String

/-- Direct embedding of `parseEvent` (src/unnamed/part_000, lines 228-272):
resolve start/end (zero value on failure), compute the duration once, read the
text properties, then either expand the recurrence rule over the window (an
unconstructible rule is the only error) or emit the single event as is. -/
def parseEvent (e : ICalEvent) (wstart wstop : Int) (includeDescription : Bool) :
    Except String (List Event) :=
  let dtstart := e.dtstart.getD 0
  let dtend := e.dtend.getD 0
  let duration := dtend - dtstart
  let summary := e.summary.getD ""
  let description := if includeDescription then e.description.getD "" else ""
  let location := e.location.getD ""
  match e.rrule with
  | some ropt =>
    match ropt.build dtstart with
    | .error err => .error err
    | .ok occs =>
      .ok ((between occs wstart wstop).map
        (fun t => ⟨t, t + duration, summary, description, location⟩))
  | none => .ok [⟨dtstart, dtend, summary, description, location⟩]

/-- The inner loop of `queryEvents` over one calendar's returned source events:
a failing `parseEvent` is logged (`log.Println("parseEvent:", err)`) and that
single event skipped; successful expansions are appended in order.  Returns the
accumulated events together with the emitted log lines. -/
def collectCalendar (srcs : List ICalEvent) (wstart wstop : Int)
    (includeDescription : Bool) : List Event × List String :=
  match srcs with
  | [] => ([], [])
  | ev :: rest =>
    let head :=
      match parseEvent ev wstart wstop includeDescription with
      | .error err => (([] : List Event), ["parseEvent: " ++ err])
      | .ok es => (es, ([] : List String))
    let tail := collectCalendar rest wstart wstop includeDescription
    (head.1 ++ tail.1, head.2 ++ tail.2)

/-- One calendar as seen by the aggregation loop: its name and the outcome of
the external `client.QueryCalendar` call (transport is out of scope, so the
outcome is the input). -/
structure CalResult where
  name : String
  result : Except String (List ICalEvent)

/-- The outer loop of `queryEvents` (src/unnamed/part_000, lines 200-220): a
calendar whose remote query failed is logged
(`log.Printf("QueryCalendar(%v): %v", c.Name, err)`) and skipped; the events of
the remaining calendars are accumulated in order. -/
def collectEvents (calendars : List CalResult) (wstart wstop : Int)
    (includeDescription : Bool) : List Event × List String :=
  match calendars with
  | [] => ([], [])
  | c :: rest =>
    let head :=
      match c.result with
      | .error err =>
        (([] : List Event), ["QueryCalendar(" ++ c.name ++ "): " ++ err])
      | .ok srcs => collectCalendar srcs wstart wstop includeDescription
    let tail := collectEvents rest wstart wstop includeDescription
    (head.1 ++ tail.1, head.2 ++ tail.2)

/-- The final ordering step of `queryEvents`: `slices.SortFunc` with comparator
`a.start.Compare(b.start)`.  Go documents `slices.SortFunc` as not guaranteed
to be stable; it is modelled here by a sort under the same comparator (no
theorem below depends on how events with equal starts are ordered). -/
def sortEvents (es : List Event) : List Event :=
  es.mergeSort (fun a b => decide (a.start ≤ b.start))

/-- Embedding of `queryEvents` (src/unnamed/part_000, lines 175-226): accumulate
events across calendars, tolerating per-calendar and per-event failures, then
sort by start. -/
def queryEvents (calendars : List CalResult) (wstart wstop : Int)
    (includeDescription : Bool) : List Event × List String :=
  let p := collectEvents calendars wstart wstop includeDescription
  (sortEvents p.1, p.2)

/-- Go `fmt` verb `%2v` applied to an integer: decimal text, space-padded on
the left to a minimum width of two. -/
def padWidth2 (n : Int) : String :=
  let s := toString n
  if s.length < 2 then " " ++ s else s

/-- Go `fmt` verb `%02v` applied to an integer: decimal text, zero-padded on
the left to a minimum width of two. -/
def zeroPad2 (n : Int) : String :=
  let s := toString n
  if s.length < 2 then "0" ++ s else s

/-- The duration label `d` computed inside `printEvent` (src/unnamed/part_000,
lines 292-305).  `durString` stands for the Go standard library's
`Duration.String`, an external collaborator used only in the fallback branch. -/
def durationLabel (durString : Int → String) (duration : Int) : String :=
  if 0 < duration ∧ duration < day24 then
    let h := duration.tdiv nsPerHour
    let m := (duration - h * nsPerHour).tdiv nsPerMin
    if m = 0 then padWidth2 h ++ "h   "
    else padWidth2 h ++ "h" ++ zeroPad2 m ++ "m"
  else durString duration

/-- Embedding of `printEvent` (src/unnamed/part_000, lines 274-323), producing
the list of lines written to the output stream.  `fmtTime layout t` stands for
the Go standard library's `t.Format(layout)` (an external collaborator); the
source uses the layouts "Mon 2006-01-02" (weekday and date) and
"Mon 2006-01-02 15:04" (weekday, date and time of day). -/
def printEvent (fmtTime : String → Int → String) (durString : Int → String)
    (e : Event) (verbose : Bool) : List String :=
  let duration := e.endT - e.start
  let location := if e.location = "" then "" else ", " ++ e.location
  let mainLine :=
    if hourOf e.start = 0 ∧ minuteOf e.start = 0 ∧ duration = day24 then
      fmtTime "Mon 2006-01-02" e.start ++ "              " ++ e.summary ++ location
    else
      fmtTime "Mon 2006-01-02 15:04" e.start ++ " " ++
        durationLabel durString duration ++ " " ++ e.summary ++ location
  if verbose ∧ e.description ≠ "" then [mainLine, e.description] else [mainLine]

/-- Value of one decimal digit character, `none` otherwise. -/
def toDigit (c : Char) : Option Nat :=
  if '0' ≤ c ∧ c ≤ '9' then some (c.toNat - '0'.toNat) else none

/-- Decimal value of a non-empty all-digit character list, `none` otherwise. -/
def digitsVal (cs : List Char) : Option Nat :=
  match cs with
  | [] => none
  | _ =>
    cs.foldl
      (fun acc c =>
        match acc, toDigit c with
        | some a, some d => some (a * 10 + d)
        | _, _ => none)
      (some 0)

/-- Go `strconv.Atoi`: an optional sign followed by one or more decimal digits,
nothing else; the value must fit a 64-bit signed integer, otherwise an error
(`none`). -/
def atoi (s : String) : Option Int :=
  let cs := s.toList
  let sc : Int × List Char :=
    match cs with
    | '+' :: r => (1, r)
    | '-' :: r => (-1, r)
    | r => (1, r)
  match digitsVal sc.2 with
  | none => none
  | some n =>
    let v : Int := sc.1 * n
    if v < -(2 ^ 63) ∨ 2 ^ 63 - 1 < v then none else some v

/-- Two's-complement wrap-around of 64-bit signed multiplication, as performed
by Go when evaluating `time.Duration(i) * 24 * time.Hour`. -/
def durWrap (x : Int) : Int := (x + 2 ^ 63).emod (2 ^ 64) - 2 ^ 63

/-- The `-duration` flag switch of `main` (src/unnamed/part_000, lines 51-69):
symbolic values map to fixed day counts, anything else goes through
`strconv.Atoi`; `none` models `log.Fatalf` (the program terminates with an
error). -/
def parseDuration (s : String) : Option Int :=
  if s = "day" then some day24
  else if s = "week" then some (7 * day24)
  else if s = "month" then some (31 * day24)
  else if s = "year" then some (356 * day24)
  else (atoi s).map (fun i => durWrap (i * day24))

/-- Replace the description property of a source event, leaving every other
field unchanged (used to state that the pipeline ignores descriptions when
`includeDescription` is false). -/
def mapDesc (f : ICalEvent → Option String) (e : ICalEvent) : ICalEvent :=
  { e with description := f e }

/-- Apply `mapDesc` to every source event of every calendar result. -/
def calsMapDesc (f : ICalEvent → Option String) (cals : List CalResult) :
    List CalResult :=
  cals.map (fun c => ⟨c.name, c.result.map (List.map (mapDesc f))⟩)

/-- Whole-hour component of a duration as the spec describes the label
(`<H>`): the number of full hours it contains. -/
def specHours (d : Int) : Int := d / nsPerHour

/-- Whole-minute component of a duration as the spec describes the label
(`<MM>`): the number of full minutes left after removing the full hours. -/
def specMinutes (d : Int) : Int := d % nsPerHour / nsPerMin

/-- Splitting lemma for the per-calendar event loop: processing a concatenation
of source-event lists concatenates the accumulated events and logs. -/
theorem collectCalendar_append (a b : List ICalEvent) (wstart wstop : Int)
    (incl : Bool) :
    collectCalendar (a ++ b) wstart wstop incl =
      ((collectCalendar a wstart wstop incl).1 ++ (collectCalendar b wstart wstop incl).1,
       (collectCalendar a wstart wstop incl).2 ++ (collectCalendar b wstart wstop incl).2) := by
  induction a with
  | nil => simp [collectCalendar]
  | cons x xs ih => simp [collectCalendar, ih]

/-- Splitting lemma for the calendar loop: processing a concatenation of
calendar lists concatenates the accumulated events and logs. -/
theorem collectEvents_append (a b : List CalResult) (wstart wstop : Int)
    (incl : Bool) :
    collectEvents (a ++ b) wstart wstop incl =
      ((collectEvents a wstart wstop incl).1 ++ (collectEvents b wstart wstop incl).1,
       (collectEvents a wstart wstop incl).2 ++ (collectEvents b wstart wstop incl).2) := by
  induction a with
  | nil => simp [collectEvents]
  | cons x xs ih => simp [collectEvents, ih]

/-- C1: for a source event carrying a recurrence rule, every occurrence emitted
by expansion over the query window has its start within the window, both
boundaries inclusive, and the difference between its end and its start equals
the source event's duration `endAt - startAt` computed once before expansion. -/
theorem c1_recurring_window_duration
    (e : ICalEvent) (r : RRuleOpt) (occs : List Int) (wstart wstop : Int)
    (incl : Bool) (es : List Event)
    (hr : e.rrule = some r)
    (hb : r.build (e.dtstart.getD 0) = .ok occs)
    (hp : parseEvent e wstart wstop incl = .ok es) :
    ∀ ev ∈ es, (wstart ≤ ev.start ∧ ev.start ≤ wstop) ∧
      ev.endT - ev.start = e.dtend.getD 0 - e.dtstart.getD 0 := by
  simp only [parseEvent, hr, hb, Except.ok.injEq] at hp
  subst hp
  intro ev hev
  simp only [between, List.mem_map, List.mem_filter, decide_eq_true_eq] at hev
  obtain ⟨t, ⟨_, h1, h2⟩, rfl⟩ := hev
  exact ⟨⟨h1, h2⟩, by ring⟩

/-- Witness for C1: a weekly-style rule anchored at 2 with generated timestamps
2 and 100, window [0, 10]; the single emitted occurrence starts at 2 (inside
the window) and keeps the source duration 5. -/
theorem c1_recurring_window_duration_witness :
    parseEvent ⟨some 2, some 7, some ⟨fun a => .ok [a, 100]⟩, none, none, none⟩
        0 10 false = .ok [⟨2, 7, "", "", ""⟩] ∧
    ∀ ev ∈ [(⟨2, 7, "", "", ""⟩ : Event)],
      (0 ≤ ev.start ∧ ev.start ≤ 10) ∧
        ev.endT - ev.start =
          (Option.some (7 : Int)).getD 0 - (Option.some (2 : Int)).getD 0 :=
  ⟨rfl,
    c1_recurring_window_duration
      ⟨some 2, some 7, some ⟨fun a => .ok [a, 100]⟩, none, none, none⟩
      ⟨fun a => .ok [a, 100]⟩ [2, 100] 0 10 false [⟨2, 7, "", "", ""⟩]
      rfl rfl rfl⟩

/-- C2: a source event without a recurrence rule and with `endAt ≥ startAt`
expands to exactly one occurrence with `start = startAt` and `end = endAt`; in
particular `endAt = startAt` yields one zero-duration occurrence and is not an
error. -/
theorem c2_nonrecurring_single
    (e : ICalEvent) (wstart wstop : Int) (incl : Bool)
    (hr : e.rrule = none)
    (hge : e.dtstart.getD 0 ≤ e.dtend.getD 0) :
    parseEvent e wstart wstop incl =
      .ok [⟨e.dtstart.getD 0, e.dtend.getD 0, e.summary.getD "",
            if incl then e.description.getD "" else "", e.location.getD ""⟩] := by
  simp [parseEvent, hr]

/-- Witness for C2, at the zero-duration edge case: `startAt = endAt = 3`
expands to one zero-duration occurrence, not an error. -/
theorem c2_nonrecurring_single_witness :
    parseEvent ⟨some 3, some 3, none, some "s", none, some "l"⟩ 0 10 false =
      .ok [⟨3, 3, "s", "", "l"⟩] := by
  have h := c2_nonrecurring_single
    ⟨some 3, some 3, none, some "s", none, some "l"⟩ 0 10 false rfl (by decide)
  simpa using h

/-- C3: a calendar whose remote query fails is logged and skipped; the
aggregate still returns exactly the occurrences contributed by the other
calendars (the sorted event list is the one obtained with the failing calendar
removed), the log gains the failure line in position, and the operation as a
whole still returns a result. -/
theorem c3_calendar_failure_isolated
    (pre post : List CalResult) (nm msg : String) (wstart wstop : Int)
    (incl : Bool) :
    (queryEvents (pre ++ ⟨nm, .error msg⟩ :: post) wstart wstop incl).1 =
      (queryEvents (pre ++ post) wstart wstop incl).1 ∧
    (queryEvents (pre ++ ⟨nm, .error msg⟩ :: post) wstart wstop incl).2 =
      (collectEvents pre wstart wstop incl).2 ++
        ("QueryCalendar(" ++ nm ++ "): " ++ msg) ::
          (collectEvents post wstart wstop incl).2 := by
  have h1 := collectEvents_append pre (⟨nm, .error msg⟩ :: post) wstart wstop incl
  have h2 := collectEvents_append pre post wstart wstop incl
  constructor
  · simp [queryEvents, h1, h2, collectEvents]
  · simp [queryEvents, h1, collectEvents]

/-- C4: a source event whose recurrence rule cannot be constructed makes
`parseEvent` fail with the original construction error, and the aggregation
loop logs that error and skips only that event: the events accumulated from the
surrounding source events are unchanged and processing continues. -/
theorem c4_malformed_rule
    (pre post : List ICalEvent) (bad : ICalEvent) (r : RRuleOpt) (msg : String)
    (wstart wstop : Int) (incl : Bool)
    (hr : bad.rrule = some r)
    (hb : r.build (bad.dtstart.getD 0) = .error msg) :
    parseEvent bad wstart wstop incl = .error msg ∧
    collectCalendar (pre ++ bad :: post) wstart wstop incl =
      ((collectCalendar pre wstart wstop incl).1 ++
         (collectCalendar post wstart wstop incl).1,
       (collectCalendar pre wstart wstop incl).2 ++
         ("parseEvent: " ++ msg) ::
           (collectCalendar post wstart wstop incl).2) := by
  have hp : parseEvent bad wstart wstop incl = .error msg := by
    simp [parseEvent, hr, hb]
  refine ⟨hp, ?_⟩
  have h1 := collectCalendar_append pre (bad :: post) wstart wstop incl
  simp [h1, collectCalendar, hp]

/-- Witness for C4: between two plain events, one event with an
unconstructible rule is dropped with a log line while both neighbours'
occurrences survive. -/
theorem c4_malformed_rule_witness :
    parseEvent ⟨none, none, some ⟨fun a => .error "boom"⟩, none, none, none⟩
        0 10 false = .error "boom" ∧
    collectCalendar
        ([⟨some 1, some 2, none, none, none, none⟩] ++
          ⟨none, none, some ⟨fun a => .error "boom"⟩, none, none, none⟩ ::
            [⟨some 4, some 5, none, none, none, none⟩]) 0 10 false =
      ((collectCalendar [⟨some 1, some 2, none, none, none, none⟩] 0 10 false).1 ++
         (collectCalendar [⟨some 4, some 5, none, none, none, none⟩] 0 10 false).1,
       (collectCalendar [⟨some 1, some 2, none, none, none, none⟩] 0 10 false).2 ++
         ("parseEvent: " ++ "boom") ::
           (collectCalendar [⟨some 4, some 5, none, none, none, none⟩] 0 10 false).2) :=
  c4_malformed_rule [⟨some 1, some 2, none, none, none, none⟩]
    [⟨some 4, some 5, none, none, none, none⟩]
    ⟨none, none, some ⟨fun a => .error "boom"⟩, none, none, none⟩
    ⟨fun a => .error "boom"⟩ "boom" 0 10 false rfl rfl

/-- C6: an occurrence whose duration is exactly 24 hours and whose start has
local hour 0 and minute 0 renders as a single line made of the weekday-and-date
layout, fourteen spaces of padding, the summary, and the location with a comma
separator when non-empty — no time-of-day layout and no duration label; an
occurrence failing that condition renders with the time-of-day layout and the
duration label instead. -/
theorem c6_allday_render
    (fmtTime : String → Int → String) (durString : Int → String) (e : Event) :
    (hourOf e.start = 0 ∧ minuteOf e.start = 0 ∧ e.endT - e.start = day24 →
      printEvent fmtTime durString e false =
        [fmtTime "Mon 2006-01-02" e.start ++ "              " ++ e.summary ++
          (if e.location = "" then "" else ", " ++ e.location)]) ∧
    (¬(hourOf e.start = 0 ∧ minuteOf e.start = 0 ∧ e.endT - e.start = day24) →
      printEvent fmtTime durString e false =
        [fmtTime "Mon 2006-01-02 15:04" e.start ++ " " ++
          durationLabel durString (e.endT - e.start) ++ " " ++ e.summary ++
          (if e.location = "" then "" else ", " ++ e.location)]) := by
  constructor <;> intro h <;> simp [printEvent, h]

/-- Witness for C6: a midnight-started 24-hour occurrence renders the all-day
line with location; a one-hour occurrence renders the timed line. -/
theorem c6_allday_render_witness :
    printEvent (fun l t => l) (fun d => "D") ⟨0, day24, "S", "", "L"⟩ false =
      ["Mon 2006-01-02              S, L"] ∧
    printEvent (fun l t => l) (fun d => "D") ⟨0, nsPerHour, "S", "", ""⟩ false =
      ["Mon 2006-01-02 15:04  1h    S"] := by
  constructor
  · have h := (c6_allday_render (fun l t => l) (fun d => "D")
      ⟨0, day24, "S", "", "L"⟩).1 (by refine ⟨?_, ?_, ?_⟩ <;> decide)
    exact h.trans (by decide)
  · have h := (c6_allday_render (fun l t => l) (fun d => "D")
      ⟨0, nsPerHour, "S", "", ""⟩).2 (by decide)
    exact h.trans (by decide)

/-- C7 counterexample: the claim says a 90-minute occurrence renders the
duration label "1h30m", but the code formats the hour with the width-two
space-padded verb `%2v`, producing " 1h30m". -/
theorem c7_duration_label_counterexample :
    durationLabel (fun d => "") (90 * nsPerMin) = " 1h30m" ∧
    durationLabel (fun d => "") (90 * nsPerMin) ≠ "1h30m" := by
  constructor <;> decide

/-- C7 (amended): for a non-all-day occurrence the duration label is the hour
count space-padded to width two, then "h", then the two-digit minute count and
"m" when the minutes component is positive; the hour count padded, then "h   "
when the minutes component is zero; and the generic duration string in every
other case (duration ≤ 0 or ≥ 24h); a 90-minute duration yields " 1h30m". -/
theorem c7_duration_label_format (durString : Int → String) (d : Int) :
    (0 < d → d < day24 → 0 < specMinutes d →
      durationLabel durString d =
        padWidth2 (specHours d) ++ "h" ++ zeroPad2 (specMinutes d) ++ "m") ∧
    (0 < d → d < day24 → specMinutes d = 0 →
      durationLabel durString d = padWidth2 (specHours d) ++ "h   ") ∧
    (¬(0 < d ∧ d < day24) → durationLabel durString d = durString d) ∧
    durationLabel durString (90 * nsPerMin) = " 1h30m" := by
  have key : 0 < d →
      d.tdiv nsPerHour = specHours d ∧
      (d - d.tdiv nsPerHour * nsPerHour).tdiv nsPerMin = specMinutes d := by
    intro h0
    have h1 : d.tdiv nsPerHour = specHours d :=
      Int.tdiv_eq_ediv (le_of_lt h0) (by decide)
    have h2 : d - d.tdiv nsPerHour * nsPerHour = d % nsPerHour := by
      rw [h1]; unfold specHours; rw [Int.emod_def]; ring
    have h3 : (d % nsPerHour).tdiv nsPerMin = specMinutes d := by
      rw [Int.tdiv_eq_ediv (Int.emod_nonneg d (by decide)) (by decide)]
      rfl
    exact ⟨h1, by rw [h2, h3]⟩
  refine ⟨?_, ?_, ?_, ?_⟩
  · intro h0 h24 hm
    obtain ⟨h1, h2⟩ := key h0
    simp only [durationLabel]
    rw [if_pos (⟨h0, h24⟩ : 0 < d ∧ d < day24), h2, h1,
      if_neg (by omega : ¬specMinutes d = 0)]
  · intro h0 h24 hm
    obtain ⟨h1, h2⟩ := key h0
    simp only [durationLabel]
    rw [if_pos (⟨h0, h24⟩ : 0 < d ∧ d < day24), h2, h1, if_pos hm]
  · intro h
    simp only [durationLabel]
    rw [if_neg h]
  · rfl

/-- Witness for C7 (amended): two whole hours label as " 2h   "; a
non-positive duration falls back to the generic duration string. -/
theorem c7_duration_label_format_witness :
    durationLabel (fun x => "G") (2 * nsPerHour) = " 2h   " ∧
    durationLabel (fun x => "G") 0 = "G" :=
  ⟨((c7_duration_label_format (fun x => "G") (2 * nsPerHour)).2.1
      (by decide) (by decide) (by decide)).trans (by decide),
   ((c7_duration_label_format (fun x => "G") 0).2.2.1 (by decide)).trans rfl⟩

/-- C8: a source event whose start or end timestamp, summary, description or
location cannot be resolved is expanded with the zero value substituted for the
missing field (zero timestamp, empty string) and never fails for that reason:
the only way `parseEvent` returns an error is an unconstructible recurrence
rule, and the event with every property missing expands to the single zero
occurrence. -/
theorem c8_missing_props :
    (∀ (e : ICalEvent) (wstart wstop : Int) (incl : Bool) (msg : String),
        parseEvent e wstart wstop incl = .error msg →
        ∃ r, e.rrule = some r ∧ r.build (e.dtstart.getD 0) = .error msg) ∧
    (∀ (wstart wstop : Int) (incl : Bool),
        parseEvent ⟨none, none, none, none, none, none⟩ wstart wstop incl =
          .ok [⟨0, 0, "", "", ""⟩]) := by
  constructor
  · intro e wstart wstop incl msg hp
    match hrr : e.rrule with
    | none => simp [parseEvent, hrr] at hp
    | some r =>
      match hb : r.build (e.dtstart.getD 0) with
      | .error err =>
        simp only [parseEvent, hrr, hb, Except.error.injEq] at hp
        exact ⟨r, rfl, by rw [hb, hp]⟩
      | .ok occs => simp [parseEvent, hrr, hb] at hp
  · intro wstart wstop incl
    simp [parseEvent]

/-- Witness for C8: an event whose only content is an unconstructible rule
errors out with that rule's error, and the all-missing event expands to the
zero occurrence. -/
theorem c8_missing_props_witness :
    (∃ r, (⟨none, none, some ⟨fun a => .error "bad"⟩, none, none, none⟩ :
          ICalEvent).rrule = some r ∧
        r.build ((none : Option Int).getD 0) = .error "bad") ∧
    parseEvent ⟨none, none, none, none, none, none⟩ 0 5 true =
      .ok [⟨0, 0, "", "", ""⟩] :=
  ⟨c8_missing_props.1 ⟨none, none, some ⟨fun a => .error "bad"⟩, none, none, none⟩
      0 5 true "bad" rfl,
   c8_missing_props.2 0 5 true⟩

/-- Description change on a source event does not change non-description-fetching
expansion: `parseEvent` with `includeDescription = false` ignores the
description property. -/
theorem parseEvent_mapDesc (f : ICalEvent → Option String) (e : ICalEvent)
    (wstart wstop : Int) :
    parseEvent (mapDesc f e) wstart wstop false = parseEvent e wstart wstop false := by
  simp [parseEvent, mapDesc]

/-- Lifting of `parseEvent_mapDesc` to one calendar's event loop. -/
theorem collectCalendar_mapDesc (f : ICalEvent → Option String)
    (srcs : List ICalEvent) (wstart wstop : Int) :
    collectCalendar (srcs.map (mapDesc f)) wstart wstop false =
      collectCalendar srcs wstart wstop false := by
  induction srcs with
  | nil => rfl
  | cons x xs ih => simp [collectCalendar, parseEvent_mapDesc, ih]

/-- Lifting of `parseEvent_mapDesc` to the whole calendar loop. -/
theorem collectEvents_mapDesc (f : ICalEvent → Option String)
    (cals : List CalResult) (wstart wstop : Int) :
    collectEvents (calsMapDesc f cals) wstart wstop false =
      collectEvents cals wstart wstop false := by
  induction cals with
  | nil => rfl
  | cons c rest ih =>
    simp only [calsMapDesc, List.map_cons]
    simp only [collectEvents]
    have ih2 : collectEvents
        (List.map (fun c => CalResult.mk c.name (c.result.map (List.map (mapDesc f)))) rest)
        wstart wstop false = collectEvents rest wstart wstop false := by
      simpa [calsMapDesc] using ih
    rw [ih2]
    cases hc : c.result with
    | error err => rfl
    | ok srcs => simp [Except.map, collectCalendar_mapDesc]

/-- C9: with `includeDescription = false` the pipeline's output is independent
of every source event's description (changing descriptions arbitrarily leaves
the result of `queryEvents` unchanged); summary and location are copied
verbatim onto every occurrence, the description verbatim exactly when
`includeDescription` is true; and with `verbose` true a non-empty description
is appended as one trailing line after the summary line. -/
theorem c9_description_independent :
    (∀ (f : ICalEvent → Option String) (cals : List CalResult) (wstart wstop : Int),
        queryEvents (calsMapDesc f cals) wstart wstop false =
          queryEvents cals wstart wstop false) ∧
    (∀ (e : ICalEvent) (wstart wstop : Int) (incl : Bool) (es : List Event),
        parseEvent e wstart wstop incl = .ok es →
        ∀ ev ∈ es, ev.summary = e.summary.getD "" ∧
          ev.location = e.location.getD "" ∧
          ev.description = if incl then e.description.getD "" else "") ∧
    (∀ (fmtTime : String → Int → String) (durString : Int → String) (ev : Event),
        ev.description ≠ "" →
        printEvent fmtTime durString ev true =
          printEvent fmtTime durString ev false ++ [ev.description]) := by
  refine ⟨?_, ?_, ?_⟩
  · intro f cals wstart wstop
    simp [queryEvents, collectEvents_mapDesc]
  · intro e wstart wstop incl es hp ev hev
    match hrr : e.rrule with
    | none =>
      simp only [parseEvent, hrr, Except.ok.injEq] at hp
      subst hp
      simp only [List.mem_singleton] at hev
      subst hev
      exact ⟨rfl, rfl, rfl⟩
    | some r =>
      match hb : r.build (e.dtstart.getD 0) with
      | .error err => simp [parseEvent, hrr, hb] at hp
      | .ok occs =>
        simp only [parseEvent, hrr, hb, Except.ok.injEq] at hp
        subst hp
        simp only [List.mem_map] at hev
        obtain ⟨t, _, rfl⟩ := hev
        exact ⟨rfl, rfl, rfl⟩
  · intro fmtTime durString ev h
    simp [printEvent, h]

/-- Witness for C9: changing the description of a concrete calendar's only
event does not change the query result; the expanded occurrence carries
summary, location and (requested) description verbatim; and verbose rendering
appends the description line. -/
theorem c9_description_independent_witness :
    queryEvents (calsMapDesc (fun e => some "DESC")
        [⟨"c", .ok [⟨some 1, some 2, none, some "s", some "d0", none⟩]⟩]) 0 10 false =
      queryEvents [⟨"c", .ok [⟨some 1, some 2, none, some "s", some "d0", none⟩]⟩]
        0 10 false ∧
    (∀ ev ∈ [(⟨1, 2, "s", "d0", ""⟩ : Event)],
      ev.summary = "s" ∧ ev.location = "" ∧ ev.description = "d0") ∧
    printEvent (fun l t => l) (fun x => "D") ⟨1, 2, "s", "d0", ""⟩ true =
      printEvent (fun l t => l) (fun x => "D") ⟨1, 2, "s", "d0", ""⟩ false ++ ["d0"] :=
  ⟨c9_description_independent.1 (fun e => some "DESC")
      [⟨"c", .ok [⟨some 1, some 2, none, some "s", some "d0", none⟩]⟩] 0 10,
   c9_description_independent.2.1 ⟨some 1, some 2, none, some "s", some "d0", none⟩
      0 10 true [⟨1, 2, "s", "d0", ""⟩] rfl,
   c9_description_independent.2.2 (fun l t => l) (fun x => "D")
      ⟨1, 2, "s", "d0", ""⟩ (by decide)⟩

/-- C10: the symbolic -duration values map to fixed counts of 24-hour days —
"day" to 1, "week" to 7, "month" to 31, and "year" to 356 (not 365) — any other
value goes through integer parsing of a day count, and a failed parse means the
program terminates with an error (modelled as `none`). -/
theorem c10_duration_flag :
    parseDuration "day" = some day24 ∧
    parseDuration "week" = some (7 * day24) ∧
    parseDuration "month" = some (31 * day24) ∧
    parseDuration "year" = some (356 * day24) ∧
    parseDuration "year" ≠ some (365 * day24) ∧
    (∀ s, s ≠ "day" → s ≠ "week" → s ≠ "month" → s ≠ "year" →
      parseDuration s = (atoi s).map (fun i => durWrap (i * day24))) ∧
    (∀ s, s ≠ "day" → s ≠ "week" → s ≠ "month" → s ≠ "year" → atoi s = none →
      parseDuration s = none) := by
  refine ⟨by decide, by decide, by decide, by decide, by decide, ?_, ?_⟩
  · intro s h1 h2 h3 h4
    simp [parseDuration, h1, h2, h3, h4]
  · intro s h1 h2 h3 h4 ha
    simp [parseDuration, h1, h2, h3, h4, ha]

/-- Witness for C10: the value "x7" is not symbolic and does not parse as an
integer, so the duration resolution fails. -/
theorem c10_duration_flag_witness :
    parseDuration "x7" = (atoi "x7").map (fun i => durWrap (i * day24)) ∧
    parseDuration "x7" = none :=
  ⟨c10_duration_flag.2.2.2.2.2.1 "x7" (by decide) (by decide) (by decide) (by decide),
   c10_duration_flag.2.2.2.2.2.2 "x7" (by decide) (by decide) (by decide)
      (by decide) (by decide)⟩

end Ical
